import Mathlib

/-!
Shallow embedding of the appointment-scheduling subsystem of the Sahatak
telemedicine backend (backend/routes/appointments.py and the Appointment
model of backend/models.py).

Modelling conventions:
- Timestamps are absolute minutes (Nat).  A calendar date is a day number
  (days since 1970-01-01, which was a Thursday); `combine d t = d * 1440 + t`
  models `datetime.combine`.  Times of day are minutes since midnight, so
  09:00 is 540 and `%H:%M` formatting of a timestamp is `ts % 1440`.
- The ORM session is a `List Appointment` ledger; each route handler becomes
  a function from the ledger (plus the doctor store and the current time) to
  `Except ApiError (List Appointment)` or a slot list.  An error result means
  the handler returned before any mutation, exactly as in the source where
  all checks precede the session commit.
- `APIResponse.validation_error / conflict / not_found / forbidden` become
  the four `ApiError` constructors.
-/

namespace Sahatak

inductive AppointmentStatus where
  | scheduled
  | confirmed
  | in_progress
  | completed
  | cancelled
  | no_show
deriving DecidableEq, Repr

inductive AppointmentType where
  | video
  | audio
  | chat
deriving DecidableEq, Repr

inductive PaymentStatus where
  | pending
  | paid
  | refunded
deriving DecidableEq, Repr

inductive ApiError where
  | validation_error
  | conflict
  | not_found
  | forbidden
deriving DecidableEq, Repr

/-- The status filter `Appointment.status.in_(['scheduled', 'confirmed', 'in_progress'])`
used by every conflict / availability query. -/
def occupiesSlot : AppointmentStatus → Bool
  | .scheduled => true
  | .confirmed => true
  | .in_progress => true
  | _ => false

/-- The Appointment row (backend/models.py), restricted to the fields the
scheduling routes read or write. -/
structure Appointment where
  id : Nat
  patient_id : Nat
  doctor_id : Nat
  appointment_date : Nat
  appointment_type : AppointmentType
  status : AppointmentStatus
  reason_for_visit : Option String
  symptoms : Option String
  notes : Option String
  diagnosis : Option String
  prescription : Option String
  consultation_fee : Option Nat
  payment_status : PaymentStatus
  created_at : Nat
  updated_at : Nat
deriving DecidableEq, Repr

inductive Weekday where
  | monday
  | tuesday
  | wednesday
  | thursday
  | friday
  | saturday
  | sunday
deriving DecidableEq, Repr

/-- One day's entry of `available_hours`: start / end times of day in minutes. -/
structure DayHours where
  start : Nat
  «end» : Nat
deriving DecidableEq, Repr

/-- The `available_hours` JSON dict: weekday name to day hours. -/
abbrev WeeklyHours := List (Weekday × DayHours)

/-- `target_date.strftime('%A').lower()` for a day number (day 0, 1970-01-01,
was a Thursday). -/
def weekdayOf (d : Nat) : Weekday :=
  match d % 7 with
  | 0 => .thursday
  | 1 => .friday
  | 2 => .saturday
  | 3 => .sunday
  | 4 => .monday
  | 5 => .tuesday
  | _ => .wednesday

/-- `datetime.combine(date, time)` in absolute minutes. -/
def combine (d t : Nat) : Nat := d * 1440 + t

/-- The doctor profile fields read by the scheduling routes; `is_active`
comes from the joined User row. -/
structure Doctor where
  id : Nat
  is_verified : Bool
  is_active : Bool
  consultation_fee : Option Nat
  available_hours : Option WeeklyHours
deriving DecidableEq, Repr

/-- `Doctor.query.filter_by(id=..., is_verified=True).join(User).filter_by(is_active=True).first()`. -/
def findDoctor (doctors : List Doctor) (did : Nat) : Option Doctor :=
  doctors.find? (fun d => d.id == did && d.is_verified && d.is_active)

/-- The fallback schedule used when a doctor has no configured hours:
Monday to Thursday and Sunday, 09:00 (540) to 17:00 (1020). -/
def default_hours : WeeklyHours :=
  [(.monday, ⟨540, 1020⟩), (.tuesday, ⟨540, 1020⟩), (.wednesday, ⟨540, 1020⟩),
   (.thursday, ⟨540, 1020⟩), (.sunday, ⟨540, 1020⟩)]

/-- The JSON body of a create request, after field and type validation. -/
structure CreateRequest where
  doctor_id : Nat
  appointment_date : Nat
  appointment_type : AppointmentType
  reason_for_visit : Option String
  symptoms : Option String
deriving DecidableEq, Repr

/-- The row built by `Appointment(...)` in the create route: initial status
scheduled, fee copied from the doctor profile, model defaults for the
remaining columns. -/
def newAppointment (patient_id new_id now : Nat) (req : CreateRequest)
    (doctor : Doctor) : Appointment :=
  { id := new_id
    patient_id := patient_id
    doctor_id := req.doctor_id
    appointment_date := req.appointment_date
    appointment_type := req.appointment_type
    status := .scheduled
    reason_for_visit := req.reason_for_visit
    symptoms := req.symptoms
    notes := none
    diagnosis := none
    prescription := none
    consultation_fee := doctor.consultation_fee
    payment_status := .pending
    created_at := now
    updated_at := now }

/-- POST / — create_appointment.  Checks, in source order: the doctor
resolves (else a validation_error response), the date is strictly in the
future, and no non-terminal appointment of that doctor sits at exactly
that timestamp (else conflict); then appends the new `scheduled` row. -/
def create_appointment (doctors : List Doctor) (ledger : List Appointment)
    (patient_id new_id now : Nat) (req : CreateRequest) :
    Except ApiError (List Appointment) :=
  match findDoctor doctors req.doctor_id with
  | none => .error .validation_error
  | some doctor =>
    if req.appointment_date ≤ now then
      .error .validation_error
    else if ledger.any (fun a =>
        a.doctor_id == req.doctor_id && a.appointment_date == req.appointment_date &&
        occupiesSlot a.status) then
      .error .conflict
    else
      .ok (ledger ++ [newAppointment patient_id new_id now req doctor])

/-- The in-place mutation of the cancel route: status to cancelled, notes
to `data.get('cancellation_reason', appointment.notes)`, updated_at to now. -/
def cancelUpdate (aid now : Nat) (cancellation_reason : Option String)
    (a : Appointment) : Appointment :=
  if a.id == aid then
    { a with status := .cancelled,
             notes := match cancellation_reason with
                      | some r => some r
                      | none => a.notes,
             updated_at := now }
  else a

/-- PUT /&lt;id&gt;/cancel — cancel_appointment.  Checks, in source order: the
appointment resolves, the caller owns it, its status is not completed or
cancelled, and its date is more than 1 hour (60 minutes) after now. -/
def cancel_appointment (ledger : List Appointment) (patient_id aid now : Nat)
    (cancellation_reason : Option String) : Except ApiError (List Appointment) :=
  match ledger.find? (fun a => a.id == aid) with
  | none => .error .not_found
  | some appt =>
    if appt.patient_id ≠ patient_id then
      .error .forbidden
    else if appt.status = .completed ∨ appt.status = .cancelled then
      .error .validation_error
    else if appt.appointment_date ≤ now + 60 then
      .error .validation_error
    else
      .ok (ledger.map (cancelUpdate aid now cancellation_reason))

/-- The in-place mutation of the reschedule route: new date, status reset to
scheduled, notes to `data.get('reschedule_reason', appointment.notes)`,
updated_at to now. -/
def rescheduleUpdate (aid new_date now : Nat) (reschedule_reason : Option String)
    (a : Appointment) : Appointment :=
  if a.id == aid then
    { a with appointment_date := new_date,
             status := .scheduled,
             notes := match reschedule_reason with
                      | some r => some r
                      | none => a.notes,
             updated_at := now }
  else a

/-- PUT /&lt;id&gt;/reschedule — reschedule_appointment.  Checks, in source order:
the appointment resolves, the caller owns it, its status is not completed,
cancelled or in_progress, a new date is supplied and strictly future, and no
other non-terminal appointment of the same doctor sits at exactly the new
timestamp (else conflict). -/
def reschedule_appointment (ledger : List Appointment) (patient_id aid now : Nat)
    (new_appointment_date : Option Nat) (reschedule_reason : Option String) :
    Except ApiError (List Appointment) :=
  match ledger.find? (fun a => a.id == aid) with
  | none => .error .not_found
  | some appt =>
    if appt.patient_id ≠ patient_id then
      .error .forbidden
    else if appt.status = .completed ∨ appt.status = .cancelled ∨
            appt.status = .in_progress then
      .error .validation_error
    else match new_appointment_date with
    | none => .error .validation_error
    | some nd =>
      if nd ≤ now then
        .error .validation_error
      else if ledger.any (fun a =>
          a.doctor_id == appt.doctor_id && a.appointment_date == nd &&
          occupiesSlot a.status && a.id != aid) then
        .error .conflict
      else
        .ok (ledger.map (rescheduleUpdate aid nd now reschedule_reason))

/-- The slot-generation while loop of get_doctor_availability: from
`current` step by 30 minutes while below `end_datetime`, emitting the
(start, end) pairs whose end does not exceed `end_datetime`. -/
def slotStarts (current end_datetime : Nat) : List (Nat × Nat) :=
  if current < end_datetime then
    (if current + 30 ≤ end_datetime then [(current, current + 30)] else []) ++
      slotStarts (current + 30) end_datetime
  else []
termination_by end_datetime - current
decreasing_by simp_wf; omega

/-- Lines 200-226 of appointments.py as a standalone function: look the
date's weekday up in the weekly hours (empty list when absent) and walk the
day in 30-minute steps. -/
def generate_slots (weekly_hours : WeeklyHours) (target_date : Nat) :
    List (Nat × Nat) :=
  match weekly_hours.lookup (weekdayOf target_date) with
  | none => []
  | some ds => slotStarts (combine target_date ds.start) (combine target_date ds.«end»)

/-- The booked-times query: non-terminal appointments of the doctor dated in
[combine(date, start), combine(date+1, 00:00)), projected to `%H:%M`
(minutes of day). -/
def bookedTimes (ledger : List Appointment) (doctor_id target_date : Nat)
    (ds : DayHours) : List Nat :=
  (ledger.filter (fun a =>
      a.doctor_id == doctor_id &&
      decide (combine target_date ds.start ≤ a.appointment_date) &&
      decide (a.appointment_date < combine (target_date + 1) 0) &&
      occupiesSlot a.status)).map (fun a => a.appointment_date % 1440)

/-- One annotated slot of the availability response. -/
structure Slot where
  start : Nat
  «end» : Nat
  datetime : Nat
  available : Bool
deriving DecidableEq, Repr

/-- `doctor.available_hours or {...default...}`: Python `or` falls back to
the default on a missing as well as on an empty dict. -/
def resolvedHours (doctor : Doctor) : WeeklyHours :=
  match doctor.available_hours with
  | none => default_hours
  | some h => if h.isEmpty then default_hours else h

/-- GET /doctors/&lt;id&gt;/availability — get_doctor_availability.  The doctor
must resolve (else not_found); the target date (query parameter, defaulting
to today) must not lie strictly before today (else validation_error); days
absent from the weekly hours yield an empty slot list; otherwise each
generated slot is marked available iff its start time of day is not booked. -/
def get_doctor_availability (doctors : List Doctor) (ledger : List Appointment)
    (doctor_id : Nat) (date_param : Option Nat) (today : Nat) :
    Except ApiError (List Slot) :=
  match findDoctor doctors doctor_id with
  | none => .error .not_found
  | some doctor =>
    let target_date := date_param.getD today
    if target_date < today then
      .error .validation_error
    else
      match (resolvedHours doctor).lookup (weekdayOf target_date) with
      | none => .ok []
      | some ds =>
        let slots := slotStarts (combine target_date ds.start)
                                (combine target_date ds.«end»)
        let booked := bookedTimes ledger doctor_id target_date ds
        .ok (slots.map (fun p =>
          { start := p.1 % 1440, «end» := p.2 % 1440, datetime := p.1,
            available := !(booked.contains (p.1 % 1440)) }))

/-- The ledger after a create request: unchanged when the route answered
with an error before committing. -/
def runCreate (doctors : List Doctor) (ledger : List Appointment)
    (patient_id new_id now : Nat) (req : CreateRequest) : List Appointment :=
  match create_appointment doctors ledger patient_id new_id now req with
  | .ok l => l
  | .error _ => ledger

/-- The ledger after a cancel request: unchanged when the route answered
with an error before committing. -/
def runCancel (ledger : List Appointment) (patient_id aid now : Nat)
    (cancellation_reason : Option String) : List Appointment :=
  match cancel_appointment ledger patient_id aid now cancellation_reason with
  | .ok l => l
  | .error _ => ledger

/-- The ledger after a reschedule request: unchanged when the route answered
with an error before committing. -/
def runReschedule (ledger : List Appointment) (patient_id aid now : Nat)
    (new_appointment_date : Option Nat) (reschedule_reason : Option String) :
    List Appointment :=
  match reschedule_appointment ledger patient_id aid now new_appointment_date
      reschedule_reason with
  | .ok l => l
  | .error _ => ledger

/-- The conflict predicate over one (doctor, timestamp) key: the appointment
occupies exactly that slot key with a non-terminal status. -/
def slotKey (did t : Nat) (a : Appointment) : Bool :=
  a.doctor_id == did && a.appointment_date == t && occupiesSlot a.status

/-- The core invariant: at most one non-terminal appointment per
(doctor_id, appointment_date) pair. -/
def SlotInvariant (ledger : List Appointment) : Prop :=
  ∀ did t : Nat, ledger.countP (slotKey did t) ≤ 1

/-! ## Concrete data for witnesses and counterexamples -/

/-- A verified, active doctor with no configured hours. -/
def demoDoctor : Doctor :=
  { id := 1, is_verified := true, is_active := true,
    consultation_fee := some 100, available_hours := none }

/-- A verified, active doctor available Monday 09:00 to 10:00. -/
def demoDoctorMon : Doctor :=
  { id := 1, is_verified := true, is_active := true,
    consultation_fee := some 100,
    available_hours := some [(.monday, ⟨540, 600⟩)] }

/-- A doctor profile that exists but is not verified: the filtered lookup
skips it. -/
def demoDoctorUnverified : Doctor :=
  { id := 1, is_verified := false, is_active := true,
    consultation_fee := some 100, available_hours := none }

/-- A create request for doctor 1 on day 4 (a Monday) at 09:00. -/
def demoRequest : CreateRequest :=
  { doctor_id := 1, appointment_date := combine 4 540, appointment_type := .video,
    reason_for_visit := none, symptoms := none }

/-- A create request for doctor 1 on day 4 at 09:15, overlapping the 09:00
slot without coinciding with it. -/
def demoRequestQuarter : CreateRequest :=
  { doctor_id := 1, appointment_date := combine 4 555, appointment_type := .video,
    reason_for_visit := none, symptoms := none }

/-- A baseline appointment of patient 7 with doctor 1 at minute `t` with
status `st`, used to build concrete scenarios. -/
def mkAppt (i t : Nat) (st : AppointmentStatus) : Appointment :=
  { id := i, patient_id := 7, doctor_id := 1, appointment_date := t,
    appointment_type := .video, status := st,
    reason_for_visit := none, symptoms := none, notes := none,
    diagnosis := none, prescription := none, consultation_fee := some 100,
    payment_status := .pending, created_at := 0, updated_at := 0 }

/-! ## Helper lemmas -/

/-- countP is monotone under a pointwise implication on the list's members. -/
theorem countP_mono_mem {α : Type} {p q : α → Bool} {l : List α}
    (h : ∀ a ∈ l, p a = true → q a = true) : l.countP p ≤ l.countP q := by
  induction l with
  | nil => simp
  | cons a l ih =>
    have ih' := ih (fun b hb hp => h b (List.mem_cons_of_mem a hb) hp)
    rw [List.countP_cons, List.countP_cons]
    by_cases hp : p a = true
    · rw [if_pos hp, if_pos (h a (List.mem_cons_self a l) hp)]
      omega
    · rw [if_neg hp]
      split <;> omega

/-- Under primary-key uniqueness, at most one ledger row matches a given id. -/
theorem countP_id_le_one {l : List Appointment}
    (hids : (l.map Appointment.id).Nodup) (aid : Nat) :
    l.countP (fun a => a.id == aid) ≤ 1 := by
  induction l with
  | nil => simp
  | cons a l ih =>
    simp only [List.map_cons, List.nodup_cons] at hids
    rw [List.countP_cons]
    by_cases h : a.id = aid
    · have hz : l.countP (fun b => b.id == aid) = 0 := by
        rw [List.countP_eq_zero]
        intro b hb
        simp only [beq_iff_eq]
        intro hbid
        exact hids.1 (by rw [h, ← hbid]; exact List.mem_map_of_mem Appointment.id hb)
      simp [hz, h]
    · simp only [beq_iff_eq, h, if_false]
      exact Nat.le_trans (ih hids.2) (Nat.le_refl 1)

/-- Closed form of the slot-generation loop: one slot per full 30-minute
step that fits before the end time. -/
theorem slotStarts_eq (c e : Nat) :
    slotStarts c e =
      (List.range ((e - c) / 30)).map (fun k => (c + 30 * k, c + 30 * k + 30)) := by
  rw [slotStarts]
  by_cases h1 : c < e
  · rw [if_pos h1]
    by_cases h2 : c + 30 ≤ e
    · rw [if_pos h2, slotStarts_eq (c + 30) e]
      have hm : e - c = (e - (c + 30)) + 30 := by omega
      have hn : (e - c) / 30 = (e - (c + 30)) / 30 + 1 := by
        rw [hm, Nat.add_div_right _ (by omega)]
      rw [hn, List.range_succ_eq_map]
      simp only [List.map_cons, List.map_map, Nat.mul_zero, Nat.add_zero,
        List.singleton_append]
      refine congrArg₂ List.cons rfl ?_
      refine congrArg (fun f => List.map f (List.range ((e - (c + 30)) / 30))) ?_
      funext k
      simp only [Function.comp_apply, Prod.mk.injEq]
      constructor <;> omega
    · rw [if_neg h2, slotStarts_eq (c + 30) e]
      have hz : (e - c) / 30 = 0 := Nat.div_eq_of_lt (by omega)
      have hz' : (e - (c + 30)) / 30 = 0 := Nat.div_eq_of_lt (by omega)
      simp [hz, hz']
  · rw [if_neg h1]
    have hz : (e - c) / 30 = 0 := Nat.div_eq_of_lt (by omega)
    simp [hz]
termination_by e - c
decreasing_by all_goals (simp_wf; omega)

/-- Anatomy of a successful create: the doctor resolved, the date was in the
future, no non-terminal row occupied the (doctor, timestamp) key, and the
ledger gained exactly the one new row. -/
theorem create_ok_elim {doctors : List Doctor} {ledger : List Appointment}
    {patient_id new_id now : Nat} {req : CreateRequest} {l' : List Appointment}
    (h : create_appointment doctors ledger patient_id new_id now req = .ok l') :
    ∃ doctor, findDoctor doctors req.doctor_id = some doctor ∧
      now < req.appointment_date ∧
      (∀ a ∈ ledger, slotKey req.doctor_id req.appointment_date a = false) ∧
      l' = ledger ++ [newAppointment patient_id new_id now req doctor] := by
  unfold create_appointment at h
  split at h
  · simp at h
  next doctor hd =>
    split at h
    · simp at h
    next h1 =>
      split at h
      · simp at h
      next h2 =>
        refine ⟨doctor, hd, by omega, ?_, by injection h with h'; exact h'.symm⟩
        intro a ha
        have h2' := List.any_eq_false.mp (Bool.not_eq_true _ ▸ h2) a ha
        simpa [slotKey] using h2'

/-- Anatomy of a successful cancel: the row resolved, the caller owned it,
its status was neither completed nor cancelled, its date was more than 60
minutes after now, and the ledger became the pointwise cancel update. -/
theorem cancel_ok_elim {ledger : List Appointment} {patient_id aid now : Nat}
    {r : Option String} {l' : List Appointment}
    (h : cancel_appointment ledger patient_id aid now r = .ok l') :
    ∃ appt, ledger.find? (fun a => a.id == aid) = some appt ∧
      appt.patient_id = patient_id ∧
      appt.status ≠ .completed ∧ appt.status ≠ .cancelled ∧
      now + 60 < appt.appointment_date ∧
      l' = ledger.map (cancelUpdate aid now r) := by
  unfold cancel_appointment at h
  split at h
  · simp at h
  next appt hfind =>
    split at h
    · simp at h
    next hown =>
      split at h
      · simp at h
      next hst =>
        split at h
        · simp at h
        next hcut =>
          push_neg at hst
          refine ⟨appt, hfind, by omega, hst.1, hst.2, by omega,
            by injection h with h'; exact h'.symm⟩

/-- Anatomy of a successful reschedule: the row resolved, the caller owned
it, its status was none of completed / cancelled / in_progress, a future new
date was supplied, no other non-terminal row of the doctor occupied the new
timestamp, and the ledger became the pointwise reschedule update. -/
theorem reschedule_ok_elim {ledger : List Appointment} {patient_id aid now : Nat}
    {nd_opt : Option Nat} {r : Option String} {l' : List Appointment}
    (h : reschedule_appointment ledger patient_id aid now nd_opt r = .ok l') :
    ∃ appt nd, ledger.find? (fun a => a.id == aid) = some appt ∧
      appt.patient_id = patient_id ∧
      appt.status ≠ .completed ∧ appt.status ≠ .cancelled ∧
      appt.status ≠ .in_progress ∧
      nd_opt = some nd ∧ now < nd ∧
      (∀ a ∈ ledger, (slotKey appt.doctor_id nd a && a.id != aid) = false) ∧
      l' = ledger.map (rescheduleUpdate aid nd now r) := by
  unfold reschedule_appointment at h
  split at h
  · simp at h
  next appt hfind =>
    split at h
    · simp at h
    next hown =>
      split at h
      · simp at h
      next hst =>
        rcases hnd : nd_opt with _ | nd
        · rw [hnd] at h; simp at h
        · rw [hnd] at h
          simp only [] at h
          split at h
          · simp at h
          next h1 =>
            split at h
            · simp at h
            next h2 =>
              push_neg at hst
              refine ⟨appt, nd, hfind, by omega, hst.1, hst.2.1, hst.2.2,
                rfl, by omega, ?_, by injection h with h'; exact h'.symm⟩
              intro a ha
              have h2' := List.any_eq_false.mp (Bool.not_eq_true _ ▸ h2) a ha
              simpa [slotKey] using h2'

/-- Introduction form of a successful cancel. -/
theorem cancel_ok_intro {ledger : List Appointment} {patient_id aid now : Nat}
    {r : Option String} {appt : Appointment}
    (hfind : ledger.find? (fun a => a.id == aid) = some appt)
    (hown : appt.patient_id = patient_id)
    (h1 : appt.status ≠ .completed) (h2 : appt.status ≠ .cancelled)
    (h3 : now + 60 < appt.appointment_date) :
    cancel_appointment ledger patient_id aid now r =
      .ok (ledger.map (cancelUpdate aid now r)) := by
  unfold cancel_appointment
  simp only [hfind]
  rw [if_neg (fun hc => hc hown), if_neg (fun hc => hc.elim h1 h2),
    if_neg (show ¬ appt.appointment_date ≤ now + 60 by omega)]

/-- Introduction form of the cutoff rejection in cancel. -/
theorem cancel_cutoff_intro {ledger : List Appointment} {patient_id aid now : Nat}
    {r : Option String} {appt : Appointment}
    (hfind : ledger.find? (fun a => a.id == aid) = some appt)
    (hown : appt.patient_id = patient_id)
    (h1 : appt.status ≠ .completed) (h2 : appt.status ≠ .cancelled)
    (h3 : appt.appointment_date ≤ now + 60) :
    cancel_appointment ledger patient_id aid now r = .error .validation_error := by
  unfold cancel_appointment
  simp only [hfind]
  rw [if_neg (fun hc => hc hown), if_neg (fun hc => hc.elim h1 h2), if_pos h3]

/-- Introduction form of the conflict rejection in reschedule. -/
theorem reschedule_conflict_intro {ledger : List Appointment}
    {patient_id aid now nd : Nat} {r : Option String} {appt : Appointment}
    (hfind : ledger.find? (fun a => a.id == aid) = some appt)
    (hown : appt.patient_id = patient_id)
    (h1 : appt.status ≠ .completed) (h2 : appt.status ≠ .cancelled)
    (h3 : appt.status ≠ .in_progress) (hfut : now < nd)
    (hconf : ledger.any (fun a => slotKey appt.doctor_id nd a && a.id != aid) = true) :
    reschedule_appointment ledger patient_id aid now (some nd) r =
      .error .conflict := by
  unfold reschedule_appointment
  simp only [hfind]
  rw [if_neg (fun hc => hc hown), if_neg (fun hc => hc.elim h1 (fun hc' => hc'.elim h2 h3)),
    if_neg (show ¬ nd ≤ now by omega)]
  simp only [slotKey] at hconf
  rw [if_pos hconf]

/-- Introduction form of the conflict rejection in create. -/
theorem create_conflict_intro {doctors : List Doctor} {ledger : List Appointment}
    {patient_id new_id now : Nat} {req : CreateRequest} {doctor : Doctor}
    (hd : findDoctor doctors req.doctor_id = some doctor)
    (hfut : now < req.appointment_date)
    (hconf : ledger.any (slotKey req.doctor_id req.appointment_date) = true) :
    create_appointment doctors ledger patient_id new_id now req =
      .error .conflict := by
  unfold create_appointment
  simp only [hd]
  rw [if_neg (show ¬ req.appointment_date ≤ now by omega)]
  have hconf' : (ledger.any fun a =>
      a.doctor_id == req.doctor_id && a.appointment_date == req.appointment_date &&
      occupiesSlot a.status) = true := hconf
  rw [if_pos hconf']

/-- A cancel update never makes a row occupy a slot key it did not already
occupy. -/
theorem slotKey_cancelUpdate {did t aid now : Nat} {r : Option String}
    (a : Appointment) (h : slotKey did t (cancelUpdate aid now r a) = true) :
    slotKey did t a = true := by
  unfold cancelUpdate at h
  by_cases hid : a.id == aid
  · rw [if_pos hid] at h
    simp [slotKey, occupiesSlot] at h
  · rwa [if_neg hid] at h

/-- The slot invariant survives a successful create. -/
theorem create_preserves_invariant {doctors : List Doctor} {ledger : List Appointment}
    {patient_id new_id now : Nat} {req : CreateRequest} {l' : List Appointment}
    (hinv : SlotInvariant ledger)
    (h : create_appointment doctors ledger patient_id new_id now req = .ok l') :
    SlotInvariant l' := by
  obtain ⟨doctor, hd, hfut, hclear, rfl⟩ := create_ok_elim h
  intro did t
  rw [List.countP_append]
  by_cases hk : slotKey did t (newAppointment patient_id new_id now req doctor) = true
  · have hkey : req.doctor_id = did ∧ req.appointment_date = t := by
      simpa [slotKey, newAppointment, occupiesSlot] using hk
    have h1 : ledger.countP (slotKey did t) = 0 := by
      rw [List.countP_eq_zero]
      intro a ha hcontra
      rw [← hkey.1, ← hkey.2] at hcontra
      rw [hclear a ha] at hcontra
      exact Bool.false_ne_true hcontra
    rw [h1]
    simp [List.countP_cons, hk]
  · have h2 : List.countP (slotKey did t)
        [newAppointment patient_id new_id now req doctor] = 0 := by
      simp [List.countP_cons, hk]
    rw [h2]
    simpa using hinv did t

/-- The slot invariant survives a successful cancel. -/
theorem cancel_preserves_invariant {ledger : List Appointment}
    {patient_id aid now : Nat} {r : Option String} {l' : List Appointment}
    (hinv : SlotInvariant ledger)
    (h : cancel_appointment ledger patient_id aid now r = .ok l') :
    SlotInvariant l' := by
  obtain ⟨appt, hfind, hown, h1, h2, h3, rfl⟩ := cancel_ok_elim h
  intro did t
  rw [List.countP_map]
  exact le_trans (countP_mono_mem (fun a _ hp => slotKey_cancelUpdate a hp))
    (hinv did t)

/-- The slot invariant survives a successful reschedule, assuming ids are a
primary key. -/
theorem reschedule_preserves_invariant {ledger : List Appointment}
    {patient_id aid now : Nat} {nd_opt : Option Nat} {r : Option String}
    {l' : List Appointment}
    (hinv : SlotInvariant ledger) (hids : (ledger.map Appointment.id).Nodup)
    (h : reschedule_appointment ledger patient_id aid now nd_opt r = .ok l') :
    SlotInvariant l' := by
  obtain ⟨appt, nd, hfind, hown, h1, h2, h3, hndo, hfut, hclear, rfl⟩ :=
    reschedule_ok_elim h
  have hmem : appt ∈ ledger := List.mem_of_find?_eq_some hfind
  have haid : appt.id = aid := by simpa using List.find?_some hfind
  have huniq : ∀ a ∈ ledger, a.id = aid → a = appt := by
    intro a ha haid'
    exact List.inj_on_of_nodup_map hids ha hmem (by rw [haid', haid])
  intro did t
  rw [List.countP_map]
  by_cases hkey : did = appt.doctor_id ∧ t = nd
  · refine le_trans (countP_mono_mem ?_) (countP_id_le_one hids aid)
    intro a ha hp
    by_cases hid : a.id == aid
    · exact hid
    · simp only [Function.comp_apply, rescheduleUpdate] at hp
      rw [if_neg hid] at hp
      obtain ⟨hkd, hkt⟩ := hkey
      rw [hkd, hkt] at hp
      have hcl := hclear a ha
      rw [hp] at hcl
      simp only [Bool.true_and] at hcl
      rw [bne_eq_false_iff_eq] at hcl
      exact absurd (by simp [hcl]) hid
  · refine le_trans (countP_mono_mem ?_) (hinv did t)
    intro a ha hp
    by_cases hid : a.id == aid
    · have ha_eq : a = appt := huniq a ha (by simpa using hid)
      simp only [Function.comp_apply, rescheduleUpdate] at hp
      rw [if_pos hid] at hp
      have hp' : a.doctor_id = did ∧ nd = t := by
        simpa [slotKey, occupiesSlot] using hp
      exact absurd ⟨by rw [← ha_eq, hp'.1], hp'.2.symm⟩ hkey
    · simp only [Function.comp_apply, rescheduleUpdate] at hp
      rwa [if_neg hid] at hp

/-- C1: at most one appointment with status in {scheduled, confirmed,
in_progress} exists per (doctor_id, timestamp) pair; the invariant is
preserved by create, cancel and reschedule, and both create and reschedule
answer Conflict when a non-terminal appointment (other than the one being
moved, for reschedule) already occupies the exact key. -/
theorem C1_slot_key_uniqueness (doctors : List Doctor) (ledger : List Appointment)
    (hinv : SlotInvariant ledger) (hids : (ledger.map Appointment.id).Nodup) :
    (∀ patient_id new_id now req l',
        create_appointment doctors ledger patient_id new_id now req = .ok l' →
        SlotInvariant l') ∧
    (∀ patient_id aid now r l',
        cancel_appointment ledger patient_id aid now r = .ok l' →
        SlotInvariant l') ∧
    (∀ patient_id aid now nd_opt r l',
        reschedule_appointment ledger patient_id aid now nd_opt r = .ok l' →
        SlotInvariant l') ∧
    (∀ patient_id new_id now req doctor,
        findDoctor doctors req.doctor_id = some doctor →
        now < req.appointment_date →
        ledger.any (slotKey req.doctor_id req.appointment_date) = true →
        create_appointment doctors ledger patient_id new_id now req =
          .error .conflict) ∧
    (∀ patient_id aid now nd r appt,
        ledger.find? (fun a => a.id == aid) = some appt →
        appt.patient_id = patient_id →
        appt.status ≠ .completed → appt.status ≠ .cancelled →
        appt.status ≠ .in_progress → now < nd →
        ledger.any (fun a => slotKey appt.doctor_id nd a && a.id != aid) = true →
        reschedule_appointment ledger patient_id aid now (some nd) r =
          .error .conflict) := by
  refine ⟨?_, ?_, ?_, ?_, ?_⟩
  · intro patient_id new_id now req l' h
    exact create_preserves_invariant hinv h
  · intro patient_id aid now r l' h
    exact cancel_preserves_invariant hinv h
  · intro patient_id aid now nd_opt r l' h
    exact reschedule_preserves_invariant hinv hids h
  · intro patient_id new_id now req doctor hd hfut hconf
    exact create_conflict_intro hd hfut hconf
  · intro patient_id aid now nd r appt hfind hown h1 h2 h3 hfut hconf
    exact reschedule_conflict_intro hfind hown h1 h2 h3 hfut hconf

/-- Witness for C1: from the empty ledger, a concrete successful booking
yields a ledger still satisfying the slot invariant. -/
theorem C1_slot_key_uniqueness_witness :
    SlotInvariant ([] ++ [newAppointment 7 1 0 demoRequest demoDoctor]) :=
  (C1_slot_key_uniqueness [demoDoctor] [] (fun did t => by simp) (by simp)).1
    7 1 0 demoRequest ([] ++ [newAppointment 7 1 0 demoRequest demoDoctor]) rfl

/-- C2: slot generation returns an empty sequence (not an error) for a
weekday absent from the schedule; for a present day it returns exactly the
30-minute slots at start, start+30, ... whose end does not exceed the day's
end (trailing partial slot dropped); for a Monday 09:00-10:00 schedule and a
Monday date it produces exactly 09:00-09:30 and 09:30-10:00. -/
theorem C2_slot_generation (weekly_hours : WeeklyHours) (target_date : Nat) :
    (weekly_hours.lookup (weekdayOf target_date) = none →
      generate_slots weekly_hours target_date = []) ∧
    (∀ ds, weekly_hours.lookup (weekdayOf target_date) = some ds →
      generate_slots weekly_hours target_date =
        (List.range ((ds.«end» - ds.start) / 30)).map
          (fun k => (combine target_date (ds.start + 30 * k),
                     combine target_date (ds.start + 30 * k) + 30))) ∧
    generate_slots [(Weekday.monday, ⟨540, 600⟩)] 4 =
      [(combine 4 540, combine 4 570), (combine 4 570, combine 4 600)] := by
  refine ⟨?_, ?_, ?_⟩
  · intro h
    unfold generate_slots
    simp only [h]
  · intro ds h
    unfold generate_slots
    simp only [h]
    rw [slotStarts_eq]
    have hsub : combine target_date ds.«end» - combine target_date ds.start =
        ds.«end» - ds.start := by
      unfold combine; omega
    rw [hsub]
    refine congrArg (fun f => List.map f (List.range ((ds.«end» - ds.start) / 30))) ?_
    funext k
    simp only [combine, Prod.mk.injEq]
    constructor <;> omega
  · have h1 : generate_slots [(Weekday.monday, ⟨540, 600⟩)] 4 =
        slotStarts (combine 4 540) (combine 4 600) := rfl
    rw [h1, slotStarts_eq]
    decide

/-- Witness for C2: the day-present branch of the slot-generation theorem,
instantiated at the Monday 09:00-10:00 schedule. -/
theorem C2_slot_generation_witness :
    generate_slots [(Weekday.monday, ⟨540, 600⟩)] 4 =
      (List.range (((600 : Nat) - 540) / 30)).map
        (fun k => (combine 4 (540 + 30 * k), combine 4 (540 + 30 * k) + 30)) :=
  (C2_slot_generation [(Weekday.monday, ⟨540, 600⟩)] 4).2.1 ⟨540, 600⟩ rfl

/-- C3: for an owned appointment whose status is not completed or cancelled,
cancel fails with ValidationError (ledger untouched) when the start time is
at most 1 hour away, and succeeds setting status to cancelled when it is
more than 1 hour away. -/
theorem C3_cancel_cutoff {ledger : List Appointment} {patient_id aid now : Nat}
    {r : Option String} {appt : Appointment}
    (hfind : ledger.find? (fun a => a.id == aid) = some appt)
    (hown : appt.patient_id = patient_id)
    (h1 : appt.status ≠ .completed) (h2 : appt.status ≠ .cancelled) :
    (appt.appointment_date ≤ now + 60 →
      cancel_appointment ledger patient_id aid now r = .error .validation_error ∧
      runCancel ledger patient_id aid now r = ledger) ∧
    (now + 60 < appt.appointment_date →
      cancel_appointment ledger patient_id aid now r =
        .ok (ledger.map (cancelUpdate aid now r)) ∧
      ∀ a ∈ ledger.map (cancelUpdate aid now r), a.id = aid →
        a.status = .cancelled) := by
  constructor
  · intro hcut
    refine ⟨cancel_cutoff_intro hfind hown h1 h2 hcut, ?_⟩
    unfold runCancel
    rw [cancel_cutoff_intro hfind hown h1 h2 hcut]
  · intro hcut
    refine ⟨cancel_ok_intro hfind hown h1 h2 hcut, ?_⟩
    intro a ha haid
    obtain ⟨b, hb, rfl⟩ := List.mem_map.mp ha
    unfold cancelUpdate at haid ⊢
    by_cases hid : b.id == aid
    · rw [if_pos hid]
    · rw [if_neg hid] at haid
      exact absurd (by simp [haid]) hid

/-- Witness for C3: with the clock at minute 1000, cancelling an
appointment 59 minutes away fails while one 61 minutes away succeeds. -/
theorem C3_cancel_cutoff_witness :
    cancel_appointment [mkAppt 1 1059 .scheduled] 7 1 1000 none =
      .error .validation_error ∧
    cancel_appointment [mkAppt 1 1061 .scheduled] 7 1 1000 none =
      .ok ([mkAppt 1 1061 .scheduled].map (cancelUpdate 1 1000 none)) := by
  constructor
  · have hfind : List.find? (fun a => a.id == 1) [mkAppt 1 1059 .scheduled] =
        some (mkAppt 1 1059 .scheduled) := rfl
    exact ((C3_cancel_cutoff hfind rfl (by decide) (by decide)).1 (by decide)).1
  · have hfind : List.find? (fun a => a.id == 1) [mkAppt 1 1061 .scheduled] =
        some (mkAppt 1 1061 .scheduled) := rfl
    exact ((C3_cancel_cutoff hfind rfl (by decide) (by decide)).2 (by decide)).1

/-- C4: rescheduling onto a timestamp occupied by a different non-terminal
appointment of the same doctor fails with Conflict and leaves the whole
ledger — in particular the appointment being moved — unchanged. -/
theorem C4_reschedule_conflict_atomic {ledger : List Appointment}
    {patient_id aid now nd : Nat} {r : Option String} {appt b : Appointment}
    (hfind : ledger.find? (fun a => a.id == aid) = some appt)
    (hown : appt.patient_id = patient_id)
    (h1 : appt.status ≠ .completed) (h2 : appt.status ≠ .cancelled)
    (h3 : appt.status ≠ .in_progress) (hfut : now < nd)
    (hb : b ∈ ledger) (hbd : b.doctor_id = appt.doctor_id)
    (hbt : b.appointment_date = nd) (hbs : occupiesSlot b.status = true)
    (hbid : b.id ≠ aid) :
    reschedule_appointment ledger patient_id aid now (some nd) r =
      .error .conflict ∧
    runReschedule ledger patient_id aid now (some nd) r = ledger := by
  have hconf : ledger.any
      (fun a => slotKey appt.doctor_id nd a && a.id != aid) = true := by
    rw [List.any_eq_true]
    exact ⟨b, hb, by simp [slotKey, hbd, hbt, hbs, hbid]⟩
  constructor
  · exact reschedule_conflict_intro hfind hown h1 h2 h3 hfut hconf
  · unfold runReschedule
    rw [reschedule_conflict_intro hfind hown h1 h2 h3 hfut hconf]

/-- Witness for C4: appointment 1 at 09:00 cannot be moved onto 09:30,
which appointment 2 already occupies; the ledger is unchanged. -/
theorem C4_reschedule_conflict_atomic_witness :
    reschedule_appointment
        [mkAppt 1 (combine 4 540) .scheduled, mkAppt 2 (combine 4 570) .scheduled]
        7 1 0 (some (combine 4 570)) none = .error .conflict ∧
    runReschedule
        [mkAppt 1 (combine 4 540) .scheduled, mkAppt 2 (combine 4 570) .scheduled]
        7 1 0 (some (combine 4 570)) none =
      [mkAppt 1 (combine 4 540) .scheduled, mkAppt 2 (combine 4 570) .scheduled] := by
  have hfind : List.find? (fun a => a.id == 1)
      [mkAppt 1 (combine 4 540) .scheduled, mkAppt 2 (combine 4 570) .scheduled] =
      some (mkAppt 1 (combine 4 540) .scheduled) := rfl
  have hb : mkAppt 2 (combine 4 570) .scheduled ∈
      [mkAppt 1 (combine 4 540) .scheduled, mkAppt 2 (combine 4 570) .scheduled] := by
    decide
  exact C4_reschedule_conflict_atomic hfind rfl (by decide) (by decide) (by decide)
    (by decide) hb rfl rfl (by decide) (by decide)

/-- Introduction form of the invalid-status rejection in cancel. -/
theorem cancel_status_intro {ledger : List Appointment} {patient_id aid now : Nat}
    {r : Option String} {appt : Appointment}
    (hfind : ledger.find? (fun a => a.id == aid) = some appt)
    (hown : appt.patient_id = patient_id)
    (hst : appt.status = .completed ∨ appt.status = .cancelled) :
    cancel_appointment ledger patient_id aid now r = .error .validation_error := by
  unfold cancel_appointment
  simp only [hfind]
  rw [if_neg (fun hc => hc hown), if_pos hst]

/-- Introduction form of the invalid-status rejection in reschedule. -/
theorem reschedule_status_intro {ledger : List Appointment}
    {patient_id aid now : Nat} {nd_opt : Option Nat} {r : Option String}
    {appt : Appointment}
    (hfind : ledger.find? (fun a => a.id == aid) = some appt)
    (hown : appt.patient_id = patient_id)
    (hst : appt.status = .completed ∨ appt.status = .cancelled ∨
      appt.status = .in_progress) :
    reschedule_appointment ledger patient_id aid now nd_opt r =
      .error .validation_error := by
  unfold reschedule_appointment
  simp only [hfind]
  rw [if_neg (fun hc => hc hown), if_pos hst]

/-- Counterexample to C6: a no_show appointment 100 minutes in the future is
cancelled successfully and its status becomes cancelled — no_show is not a
terminal state for the cancel route. -/
theorem C6_counterexample :
    (mkAppt 1 100 .no_show).status = .no_show ∧
    cancel_appointment [mkAppt 1 100 .no_show] 7 1 0 none =
      .ok [cancelUpdate 1 0 none (mkAppt 1 100 .no_show)] ∧
    (cancelUpdate 1 0 none (mkAppt 1 100 .no_show)).status = .cancelled := by
  refine ⟨rfl, ?_, rfl⟩
  have hfind : List.find? (fun a => a.id == 1) [mkAppt 1 100 .no_show] =
      some (mkAppt 1 100 .no_show) := rfl
  exact cancel_ok_intro hfind rfl (by decide) (by decide) (by decide)

/-- C6 (amended): cancel rejects exactly the statuses completed and
cancelled, reschedule rejects exactly completed, cancelled and in_progress,
each with ValidationError and no ledger change; no_show is not blocked — a
future no_show appointment is cancellable and reschedulable. -/
theorem C6_terminal_states_amended {ledger : List Appointment}
    {patient_id aid now : Nat} {r : Option String} {appt : Appointment}
    (hfind : ledger.find? (fun a => a.id == aid) = some appt)
    (hown : appt.patient_id = patient_id) :
    (appt.status = .completed ∨ appt.status = .cancelled →
      cancel_appointment ledger patient_id aid now r = .error .validation_error ∧
      runCancel ledger patient_id aid now r = ledger) ∧
    (∀ nd_opt, appt.status = .completed ∨ appt.status = .cancelled ∨
        appt.status = .in_progress →
      reschedule_appointment ledger patient_id aid now nd_opt r =
        .error .validation_error ∧
      runReschedule ledger patient_id aid now nd_opt r = ledger) ∧
    (appt.status = .no_show → now + 60 < appt.appointment_date →
      cancel_appointment ledger patient_id aid now r =
        .ok (ledger.map (cancelUpdate aid now r))) ∧
    (∀ nd, appt.status = .no_show → now < nd →
      (∀ a ∈ ledger, (slotKey appt.doctor_id nd a && a.id != aid) = false) →
      reschedule_appointment ledger patient_id aid now (some nd) r =
        .ok (ledger.map (rescheduleUpdate aid nd now r))) := by
  refine ⟨?_, ?_, ?_, ?_⟩
  · intro hst
    refine ⟨cancel_status_intro hfind hown hst, ?_⟩
    unfold runCancel
    rw [cancel_status_intro hfind hown hst]
  · intro nd_opt hst
    refine ⟨reschedule_status_intro hfind hown hst, ?_⟩
    unfold runReschedule
    rw [reschedule_status_intro hfind hown hst]
  · intro hst hcut
    exact cancel_ok_intro hfind hown (by simp [hst]) (by simp [hst]) hcut
  · intro nd hst hfut hclear
    unfold reschedule_appointment
    simp only [hfind]
    rw [if_neg (fun hc => hc hown),
      if_neg (by simp [hst]),
      if_neg (show ¬ nd ≤ now by omega)]
    rw [if_neg ?hc]
    case hc =>
      intro hc
      obtain ⟨a, ha, hpa⟩ := List.any_eq_true.mp hc
      have := hclear a ha
      rw [show (slotKey appt.doctor_id nd a && a.id != aid) =
        (a.doctor_id == appt.doctor_id && a.appointment_date == nd &&
          occupiesSlot a.status && a.id != aid) from rfl] at this
      rw [hpa] at this
      exact absurd this (by decide)

/-- Witness for C6 (amended): a completed appointment cannot be cancelled,
and a future no_show appointment can. -/
theorem C6_terminal_states_amended_witness :
    (cancel_appointment [mkAppt 1 100 .completed] 7 1 0 none =
      .error .validation_error ∧
     runCancel [mkAppt 1 100 .completed] 7 1 0 none = [mkAppt 1 100 .completed]) ∧
    cancel_appointment [mkAppt 2 200 .no_show] 7 2 0 none =
      .ok ([mkAppt 2 200 .no_show].map (cancelUpdate 2 0 none)) := by
  have hfind1 : List.find? (fun a => a.id == 1) [mkAppt 1 100 .completed] =
      some (mkAppt 1 100 .completed) := rfl
  have hfind2 : List.find? (fun a => a.id == 2) [mkAppt 2 200 .no_show] =
      some (mkAppt 2 200 .no_show) := rfl
  exact ⟨(C6_terminal_states_amended hfind1 rfl).1 (Or.inl rfl),
    (C6_terminal_states_amended hfind2 rfl).2.2.1 rfl (by decide)⟩

/-- Introduction form of a successful create. -/
theorem create_ok_intro {doctors : List Doctor} {ledger : List Appointment}
    {patient_id new_id now : Nat} {req : CreateRequest} {doctor : Doctor}
    (hd : findDoctor doctors req.doctor_id = some doctor)
    (hfut : now < req.appointment_date)
    (hclear : ledger.any (slotKey req.doctor_id req.appointment_date) = false) :
    create_appointment doctors ledger patient_id new_id now req =
      .ok (ledger ++ [newAppointment patient_id new_id now req doctor]) := by
  unfold create_appointment
  simp only [hd]
  rw [if_neg (show ¬ req.appointment_date ≤ now by omega)]
  have hclear' : (ledger.any fun a =>
      a.doctor_id == req.doctor_id && a.appointment_date == req.appointment_date &&
      occupiesSlot a.status) = false := hclear
  rw [if_neg (by simp [hclear'])]

/-- Counterexample to C7: nothing forces slot alignment — after booking
doctor 1 at 09:00, a second booking at 09:15 also succeeds, leaving two
non-terminal appointments of the same doctor whose 30-minute windows
overlap (their start times differ by 15 minutes). -/
theorem C7_counterexample :
    create_appointment [demoDoctor] [] 7 1 0 demoRequest =
      .ok [newAppointment 7 1 0 demoRequest demoDoctor] ∧
    create_appointment [demoDoctor] [newAppointment 7 1 0 demoRequest demoDoctor]
        8 2 0 demoRequestQuarter =
      .ok [newAppointment 7 1 0 demoRequest demoDoctor,
           newAppointment 8 2 0 demoRequestQuarter demoDoctor] ∧
    occupiesSlot (newAppointment 7 1 0 demoRequest demoDoctor).status = true ∧
    occupiesSlot (newAppointment 8 2 0 demoRequestQuarter demoDoctor).status = true ∧
    (newAppointment 7 1 0 demoRequest demoDoctor).doctor_id =
      (newAppointment 8 2 0 demoRequestQuarter demoDoctor).doctor_id ∧
    (newAppointment 7 1 0 demoRequest demoDoctor).appointment_date <
      (newAppointment 8 2 0 demoRequestQuarter demoDoctor).appointment_date ∧
    (newAppointment 8 2 0 demoRequestQuarter demoDoctor).appointment_date <
      (newAppointment 7 1 0 demoRequest demoDoctor).appointment_date + 30 := by
  exact ⟨rfl, rfl, rfl, rfl, rfl, by decide, by decide⟩

/-- Introduction form of a successful reschedule. -/
theorem reschedule_ok_intro {ledger : List Appointment}
    {patient_id aid now nd : Nat} {r : Option String} {appt : Appointment}
    (hfind : ledger.find? (fun a => a.id == aid) = some appt)
    (hown : appt.patient_id = patient_id)
    (h1 : appt.status ≠ .completed) (h2 : appt.status ≠ .cancelled)
    (h3 : appt.status ≠ .in_progress) (hfut : now < nd)
    (hclear : ledger.any
      (fun a => slotKey appt.doctor_id nd a && a.id != aid) = false) :
    reschedule_appointment ledger patient_id aid now (some nd) r =
      .ok (ledger.map (rescheduleUpdate aid nd now r)) := by
  unfold reschedule_appointment
  simp only [hfind]
  rw [if_neg (fun hc => hc hown),
    if_neg (fun hc => hc.elim h1 (fun hc' => hc'.elim h2 h3)),
    if_neg (show ¬ nd ≤ now by omega)]
  have hclear' : (ledger.any fun a =>
      a.doctor_id == appt.doctor_id && a.appointment_date == nd &&
      occupiesSlot a.status && a.id != aid) = false := hclear
  rw [if_neg (by simp [hclear'])]

/-- C7 (amended): the stored timestamp is whatever the caller supplied — no
slot alignment is enforced; the only collision rule is exact-timestamp
equality: create answers Conflict exactly when a non-terminal appointment of
the doctor sits at the identical timestamp and otherwise appends the new row
at the requested timestamp unchanged, and reschedule answers Conflict
exactly when a non-terminal appointment other than the one being moved sits
at the identical new timestamp and otherwise stores the requested new
timestamp unchanged. -/
theorem C7_exact_conflict_amended {doctors : List Doctor}
    {ledger : List Appointment} {patient_id new_id now : Nat}
    {req : CreateRequest} {doctor : Doctor}
    (hd : findDoctor doctors req.doctor_id = some doctor)
    (hfut : now < req.appointment_date) :
    (ledger.any (slotKey req.doctor_id req.appointment_date) = true →
      create_appointment doctors ledger patient_id new_id now req =
        .error .conflict) ∧
    (ledger.any (slotKey req.doctor_id req.appointment_date) = false →
      create_appointment doctors ledger patient_id new_id now req =
        .ok (ledger ++ [newAppointment patient_id new_id now req doctor]) ∧
      (newAppointment patient_id new_id now req doctor).appointment_date =
        req.appointment_date) ∧
    (∀ pid2 aid now2 nd r appt,
      ledger.find? (fun a => a.id == aid) = some appt →
      appt.patient_id = pid2 →
      appt.status ≠ .completed → appt.status ≠ .cancelled →
      appt.status ≠ .in_progress → now2 < nd →
      (ledger.any (fun a => slotKey appt.doctor_id nd a && a.id != aid) = true →
        reschedule_appointment ledger pid2 aid now2 (some nd) r =
          .error .conflict) ∧
      (ledger.any (fun a => slotKey appt.doctor_id nd a && a.id != aid) = false →
        reschedule_appointment ledger pid2 aid now2 (some nd) r =
          .ok (ledger.map (rescheduleUpdate aid nd now2 r)) ∧
        ∀ a ∈ ledger.map (rescheduleUpdate aid nd now2 r), a.id = aid →
          a.appointment_date = nd)) := by
  refine ⟨?_, ?_, ?_⟩
  · intro hconf
    exact create_conflict_intro hd hfut hconf
  · intro hclear
    exact ⟨create_ok_intro hd hfut hclear, rfl⟩
  · intro pid2 aid now2 nd r appt hfind2 hown2 hc1 hc2 hc3 hfut2
    constructor
    · intro hconf2
      exact reschedule_conflict_intro hfind2 hown2 hc1 hc2 hc3 hfut2 hconf2
    · intro hclear2
      refine ⟨reschedule_ok_intro hfind2 hown2 hc1 hc2 hc3 hfut2 hclear2, ?_⟩
      intro a ha haid
      obtain ⟨b, hb, rfl⟩ := List.mem_map.mp ha
      unfold rescheduleUpdate at haid ⊢
      by_cases hid : b.id == aid
      · rw [if_pos hid]
      · rw [if_neg hid] at haid
        exact absurd (by simp [haid]) hid

/-- Witness for C7 (amended): the unaligned 09:15 request goes through on an
empty ledger, and an appointment at 09:00 is rescheduled onto the unaligned
09:15, which then is its stored timestamp. -/
theorem C7_exact_conflict_amended_witness :
    create_appointment [demoDoctor] [] 7 1 0 demoRequestQuarter =
      .ok ([] ++ [newAppointment 7 1 0 demoRequestQuarter demoDoctor]) ∧
    reschedule_appointment [mkAppt 1 (combine 4 540) .scheduled] 7 1 0
        (some (combine 4 555)) none =
      .ok ([mkAppt 1 (combine 4 540) .scheduled].map
        (rescheduleUpdate 1 (combine 4 555) 0 none)) := by
  have hd : findDoctor [demoDoctor] demoRequestQuarter.doctor_id =
      some demoDoctor := rfl
  have hclear : ([] : List Appointment).any
      (slotKey demoRequestQuarter.doctor_id demoRequestQuarter.appointment_date) =
      false := rfl
  have hfind2 : List.find? (fun a => a.id == 1)
      [mkAppt 1 (combine 4 540) .scheduled] =
      some (mkAppt 1 (combine 4 540) .scheduled) := rfl
  constructor
  · exact ((C7_exact_conflict_amended hd (by decide)).2.1 hclear).1
  · exact (((@C7_exact_conflict_amended [demoDoctor]
      [mkAppt 1 (combine 4 540) .scheduled] 7 1 0 demoRequestQuarter demoDoctor
      hd (by decide)).2.2 7 1 0
      (combine 4 555) none (mkAppt 1 (combine 4 540) .scheduled)
      hfind2 rfl (by decide) (by decide) (by decide) (by decide)).2 (by decide)).1

/-- C8: availability rejects any date strictly before today with
ValidationError, and proceeds to return a slot list (possibly empty) for
today and every future date. -/
theorem C8_past_date_rejection {doctors : List Doctor} {ledger : List Appointment}
    {doctor_id today : Nat} {doctor : Doctor} (target : Nat)
    (hd : findDoctor doctors doctor_id = some doctor) :
    (target < today →
      get_doctor_availability doctors ledger doctor_id (some target) today =
        .error .validation_error) ∧
    (today ≤ target →
      ∃ slots, get_doctor_availability doctors ledger doctor_id (some target) today =
        .ok slots) := by
  constructor
  · intro hpast
    unfold get_doctor_availability
    simp only [hd, Option.getD_some]
    rw [if_pos hpast]
  · intro hfut
    unfold get_doctor_availability
    simp only [hd, Option.getD_some]
    rw [if_neg (show ¬ target < today by omega)]
    cases hlk : (resolvedHours doctor).lookup (weekdayOf target) with
    | none => exact ⟨[], by simp only [hlk]⟩
    | some ds =>
      refine ⟨(slotStarts (combine target ds.start) (combine target ds.«end»)).map
        (fun p =>
          { start := p.1 % 1440
            «end» := p.2 % 1440
            datetime := p.1
            available :=
              !((bookedTimes ledger doctor_id target ds).contains (p.1 % 1440)) }),
        ?_⟩
      simp only [hlk]

/-- Witness for C8: with today = day 5, day 4 is rejected and day 5 is
served. -/
theorem C8_past_date_rejection_witness :
    get_doctor_availability [demoDoctor] [] 1 (some 4) 5 =
      .error .validation_error ∧
    ∃ slots, get_doctor_availability [demoDoctor] [] 1 (some 5) 5 = .ok slots := by
  have hd : findDoctor [demoDoctor] 1 = some demoDoctor := rfl
  exact ⟨(C8_past_date_rejection 4 hd).1 (by decide),
    (C8_past_date_rejection 5 hd).2 (by decide)⟩

/-- Counterexample to C9: with no resolvable doctor, create_appointment
answers ValidationError, not NotFound. -/
theorem C9_counterexample :
    findDoctor [demoDoctorUnverified] demoRequest.doctor_id = none ∧
    create_appointment [demoDoctorUnverified] [] 7 1 0 demoRequest =
      .error .validation_error ∧
    ApiError.validation_error ≠ ApiError.not_found := by
  exact ⟨rfl, rfl, by decide⟩

/-- C9 (amended): when the doctor id does not resolve to a verified and
active doctor, get_availability fails with NotFound but create_appointment
fails with ValidationError; in both cases no appointment is created. -/
theorem C9_unresolved_doctor_amended {doctors : List Doctor}
    {ledger : List Appointment} {patient_id new_id now : Nat}
    {req : CreateRequest} {date_param : Option Nat} {today : Nat}
    (hd : findDoctor doctors req.doctor_id = none) :
    get_doctor_availability doctors ledger req.doctor_id date_param today =
      .error .not_found ∧
    create_appointment doctors ledger patient_id new_id now req =
      .error .validation_error ∧
    runCreate doctors ledger patient_id new_id now req = ledger := by
  have hc : create_appointment doctors ledger patient_id new_id now req =
      .error .validation_error := by
    unfold create_appointment
    simp only [hd]
  refine ⟨?_, hc, ?_⟩
  · unfold get_doctor_availability
    simp only [hd]
  · unfold runCreate
    rw [hc]

/-- Witness for C9 (amended): the unverified doctor is invisible to both
routes. -/
theorem C9_unresolved_doctor_amended_witness :
    get_doctor_availability [demoDoctorUnverified] [] demoRequestQuarter.doctor_id
      none 0 = .error .not_found ∧
    create_appointment [demoDoctorUnverified] [] 7 1 0 demoRequestQuarter =
      .error .validation_error ∧
    runCreate [demoDoctorUnverified] [] 7 1 0 demoRequestQuarter = [] :=
  C9_unresolved_doctor_amended rfl

/-- C10: a successful cancel rewrites only the target row's status, notes
and updated_at — status becomes cancelled, notes are replaced by the
supplied cancellation reason (kept as-is when none is supplied), updated_at
becomes now — while every other field of the target row and every other row
of the ledger are unchanged. -/
theorem C10_cancel_frame {ledger : List Appointment} {patient_id aid now : Nat}
    {r : Option String} {appt : Appointment}
    (hfind : ledger.find? (fun a => a.id == aid) = some appt)
    (hown : appt.patient_id = patient_id)
    (h1 : appt.status ≠ .completed) (h2 : appt.status ≠ .cancelled)
    (hcut : now + 60 < appt.appointment_date) :
    cancel_appointment ledger patient_id aid now r =
      .ok (ledger.map (cancelUpdate aid now r)) ∧
    ∀ a : Appointment,
      ((cancelUpdate aid now r a).patient_id = a.patient_id ∧
       (cancelUpdate aid now r a).doctor_id = a.doctor_id ∧
       (cancelUpdate aid now r a).appointment_date = a.appointment_date ∧
       (cancelUpdate aid now r a).appointment_type = a.appointment_type ∧
       (cancelUpdate aid now r a).consultation_fee = a.consultation_fee ∧
       (cancelUpdate aid now r a).payment_status = a.payment_status ∧
       (cancelUpdate aid now r a).reason_for_visit = a.reason_for_visit ∧
       (cancelUpdate aid now r a).symptoms = a.symptoms ∧
       (cancelUpdate aid now r a).diagnosis = a.diagnosis ∧
       (cancelUpdate aid now r a).prescription = a.prescription ∧
       (cancelUpdate aid now r a).created_at = a.created_at) ∧
      (a.id ≠ aid → cancelUpdate aid now r a = a) ∧
      (a.id = aid → (cancelUpdate aid now r a).status = .cancelled ∧
        (cancelUpdate aid now r a).updated_at = now ∧
        (cancelUpdate aid now r a).notes =
          (match r with | some s => some s | none => a.notes)) := by
  refine ⟨cancel_ok_intro hfind hown h1 h2 hcut, ?_⟩
  intro a
  by_cases hid : a.id = aid
  · simp [cancelUpdate, hid]
  · simp [cancelUpdate, hid]

/-- Witness for C10: the frame conditions evaluated on one concrete row. -/
theorem C10_cancel_frame_witness :
    cancel_appointment [mkAppt 3 5000 .confirmed] 7 3 0 none =
      .ok ([mkAppt 3 5000 .confirmed].map (cancelUpdate 3 0 none)) ∧
    (cancelUpdate 3 0 none (mkAppt 3 5000 .confirmed)).patient_id =
      (mkAppt 3 5000 .confirmed).patient_id := by
  have hfind : List.find? (fun a => a.id == 3) [mkAppt 3 5000 .confirmed] =
      some (mkAppt 3 5000 .confirmed) := rfl
  refine ⟨?_, ?_⟩
  · exact (C10_cancel_frame hfind rfl (by decide) (by decide) (by decide)).1
  · exact ((C10_cancel_frame hfind rfl (by decide) (by decide) (by decide)).2
      (mkAppt 3 5000 .confirmed)).1.1

/-- Unfolded form of a served availability request. -/
theorem availability_ok {doctors : List Doctor} {ledger : List Appointment}
    {doctor_id today d : Nat} {doctor : Doctor} {ds : DayHours}
    (hd : findDoctor doctors doctor_id = some doctor)
    (htoday : ¬ d < today)
    (hlk : (resolvedHours doctor).lookup (weekdayOf d) = some ds) :
    get_doctor_availability doctors ledger doctor_id (some d) today =
      .ok ((slotStarts (combine d ds.start) (combine d ds.«end»)).map
        (fun p => Slot.mk (p.1 % 1440) (p.2 % 1440) p.1
          (!((bookedTimes ledger doctor_id d ds).contains (p.1 % 1440))))) := by
  unfold get_doctor_availability
  simp only [hd, Option.getD_some]
  rw [if_neg htoday]
  simp only [hlk]

/-- Membership in the generated slot list, in arithmetic form. -/
theorem slot_mem_iff {c e x y : Nat} :
    (x, y) ∈ slotStarts c e ↔
      ∃ k, x = c + 30 * k ∧ y = x + 30 ∧ y ≤ e := by
  rw [slotStarts_eq]
  simp only [List.mem_map, List.mem_range, Prod.mk.injEq]
  constructor
  · rintro ⟨k, hk, hx, hy⟩
    have h30 : (0 : Nat) < 30 := by omega
    have := (Nat.le_div_iff_mul_le h30).mp (by omega : k + 1 ≤ (e - c) / 30)
    exact ⟨k, hx.symm, by omega, by omega⟩
  · rintro ⟨k, hx, hy, hle⟩
    have h30 : (0 : Nat) < 30 := by omega
    have : k + 1 ≤ (e - c) / 30 := (Nat.le_div_iff_mul_le h30).mpr (by omega)
    exact ⟨k, by omega, hx.symm, by omega⟩

/-- Membership in the booked-times set, in arithmetic form. -/
theorem mem_bookedTimes {ledger : List Appointment} {doctor_id d : Nat}
    {ds : DayHours} {x : Nat} :
    x ∈ bookedTimes ledger doctor_id d ds ↔
      ∃ a, a ∈ ledger ∧ a.doctor_id = doctor_id ∧
        combine d ds.start ≤ a.appointment_date ∧
        a.appointment_date < combine (d + 1) 0 ∧
        occupiesSlot a.status = true ∧
        a.appointment_date % 1440 = x := by
  unfold bookedTimes
  simp only [List.mem_map, List.mem_filter, Bool.and_eq_true, decide_eq_true_eq,
    beq_iff_eq]
  constructor
  · rintro ⟨a, ⟨ha, ⟨⟨⟨hdoc, h1⟩, h2⟩, hocc⟩⟩, hx⟩
    exact ⟨a, ha, hdoc, h1, h2, hocc, hx⟩
  · rintro ⟨a, ha, hdoc, h1, h2, hocc, hx⟩
    exact ⟨a, ⟨ha, ⟨⟨⟨hdoc, h1⟩, h2⟩, hocc⟩⟩, hx⟩

/-- Bool form of list membership for the booked-times contains check. -/
theorem contains_eq_true_iff {l : List Nat} {x : Nat} :
    l.contains x = true ↔ x ∈ l :=
  List.elem_iff

/-- Bool form of list non-membership for the booked-times contains check. -/
theorem contains_eq_false_iff {l : List Nat} {x : Nat} :
    l.contains x = false ↔ x ∉ l := by
  rw [Bool.eq_false_iff]
  exact not_congr contains_eq_true_iff

/-- Field behaviour of the cancel update, separate from any claim. -/
theorem cancelUpdate_fields (aid now : Nat) (r : Option String) (a : Appointment) :
    (cancelUpdate aid now r a).doctor_id = a.doctor_id ∧
    (cancelUpdate aid now r a).appointment_date = a.appointment_date ∧
    (a.id = aid → (cancelUpdate aid now r a).status = .cancelled) ∧
    (a.id ≠ aid → cancelUpdate aid now r a = a) := by
  unfold cancelUpdate
  by_cases h : a.id = aid <;> simp [h]

/-- C5: availability reflects the ledger as a round trip.  After a create at
a slot-aligned future time T succeeds, the availability query for T's date
serves a slot list in which the slot whose datetime is T exists and is
unavailable; after that appointment is cancelled, the same query marks that
slot available again, because only status in {scheduled, confirmed,
in_progress} counts as occupying. -/
theorem C5_availability_round_trip
    {doctors : List Doctor} {ledger : List Appointment} {doctor : Doctor}
    {ds : DayHours} {patient_id new_id now today d k : Nat}
    {req : CreateRequest} {l1 : List Appointment}
    (hd : findDoctor doctors req.doctor_id = some doctor)
    (hlk : (resolvedHours doctor).lookup (weekdayOf d) = some ds)
    (hslot : req.appointment_date = combine d (ds.start + 30 * k))
    (hfit : ds.start + 30 * k + 30 ≤ ds.«end»)
    (hday : ds.«end» ≤ 1440)
    (htoday : today ≤ d)
    (hcreate : create_appointment doctors ledger patient_id new_id now req = .ok l1) :
    (∃ slots1,
      get_doctor_availability doctors l1 req.doctor_id (some d) today = .ok slots1 ∧
      (∃ s ∈ slots1, s.datetime = req.appointment_date ∧ s.available = false) ∧
      (∀ s ∈ slots1, s.datetime = req.appointment_date → s.available = false)) ∧
    (∀ now2 r l2, cancel_appointment l1 patient_id new_id now2 r = .ok l2 →
      ∃ slots2,
        get_doctor_availability doctors l2 req.doctor_id (some d) today = .ok slots2 ∧
        (∃ s ∈ slots2, s.datetime = req.appointment_date ∧ s.available = true) ∧
        (∀ s ∈ slots2, s.datetime = req.appointment_date → s.available = true)) := by
  obtain ⟨doctor', hd', hfut, hclear, rfl⟩ := create_ok_elim hcreate
  rw [hd] at hd'
  injection hd' with hdd
  subst hdd
  set A := newAppointment patient_id new_id now req doctor with hA
  have hAdoc : A.doctor_id = req.doctor_id := rfl
  have hAdate : A.appointment_date = req.appointment_date := rfl
  have hAid : A.id = new_id := rfl
  have hAst : occupiesSlot A.status = true := rfl
  have hAmem : A ∈ ledger ++ [A] := by simp
  have hexact : ∀ t : Nat,
      combine d ds.start ≤ t → t < combine (d + 1) 0 →
      t % 1440 = req.appointment_date % 1440 → t = req.appointment_date := by
    intro t h1 h2 h3
    rw [hslot] at h3 ⊢
    unfold combine at h1 h2 h3 ⊢
    omega
  have hwin1 : combine d ds.start ≤ req.appointment_date := by
    rw [hslot]; unfold combine; omega
  have hwin2 : req.appointment_date < combine (d + 1) 0 := by
    rw [hslot]; unfold combine; omega
  have hmemslot : (req.appointment_date, req.appointment_date + 30) ∈
      slotStarts (combine d ds.start) (combine d ds.«end») := by
    rw [slot_mem_iff]
    refine ⟨k, ?_, rfl, ?_⟩
    · rw [hslot]; unfold combine; omega
    · rw [hslot]; unfold combine; omega
  constructor
  · have hbooked : (bookedTimes (ledger ++ [A]) req.doctor_id d ds).contains
        (req.appointment_date % 1440) = true := by
      rw [contains_eq_true_iff, mem_bookedTimes]
      exact ⟨A, hAmem, hAdoc, by rw [hAdate]; exact hwin1,
        by rw [hAdate]; exact hwin2, hAst, by rw [hAdate]⟩
    refine ⟨_, availability_ok hd (by omega) hlk, ?_, ?_⟩
    · refine ⟨_, List.mem_map_of_mem _ hmemslot, rfl, ?_⟩
      simp only [hbooked, Bool.not_true]
    · intro s hs hdt
      obtain ⟨p, hp, rfl⟩ := List.mem_map.mp hs
      have hp1 : p.1 = req.appointment_date := hdt
      simp only [hp1, hbooked, Bool.not_true]
  · intro now2 r l2 hc
    obtain ⟨appt2, hfind2, hown2, hs1, hs2, hcut2, rfl⟩ := cancel_ok_elim hc
    have hunbooked : (bookedTimes ((ledger ++ [A]).map (cancelUpdate new_id now2 r))
        req.doctor_id d ds).contains (req.appointment_date % 1440) = false := by
      rw [contains_eq_false_iff]
      intro hmem
      obtain ⟨b, hb, hbdoc, hb1, hb2, hbocc, hbx⟩ := mem_bookedTimes.mp hmem
      obtain ⟨c, hcmem, rfl⟩ := List.mem_map.mp hb
      obtain ⟨hfd, hfdate, hfcanc, hfkeep⟩ := cancelUpdate_fields new_id now2 r c
      by_cases hcid : c.id = new_id
      · rw [hfcanc hcid] at hbocc
        exact absurd hbocc (by decide)
      · rw [hfkeep hcid] at hbdoc hb1 hb2 hbocc hbx
        rcases List.mem_append.mp hcmem with hcl | hcA
        · have hct : c.appointment_date = req.appointment_date :=
            hexact c.appointment_date hb1 hb2 hbx
          have := hclear c hcl
          unfold slotKey at this
          rw [hbdoc, hct] at this
          simp [hbocc] at this
        · have : c = A := by simpa using hcA
          rw [this] at hcid
          exact hcid hAid
    refine ⟨_, availability_ok hd (by omega) hlk, ?_, ?_⟩
    · refine ⟨_, List.mem_map_of_mem _ hmemslot, rfl, ?_⟩
      simp only [hunbooked, Bool.not_false]
    · intro s hs hdt
      obtain ⟨p, hp, rfl⟩ := List.mem_map.mp hs
      have hp1 : p.1 = req.appointment_date := hdt
      simp only [hp1, hunbooked, Bool.not_false]

/-- Witness for C5: doctor 1, Monday day 4, the 09:00 slot. -/
theorem C5_availability_round_trip_witness :
    ∃ slots1,
      get_doctor_availability [demoDoctorMon]
          ([] ++ [newAppointment 7 1 0 demoRequest demoDoctorMon]) 1 (some 4) 4 =
        .ok slots1 ∧
      (∃ s ∈ slots1, s.datetime = demoRequest.appointment_date ∧
        s.available = false) ∧
      (∀ s ∈ slots1, s.datetime = demoRequest.appointment_date →
        s.available = false) := by
  have hd : findDoctor [demoDoctorMon] demoRequest.doctor_id =
      some demoDoctorMon := rfl
  have hlk : (resolvedHours demoDoctorMon).lookup (weekdayOf 4) =
      some ⟨540, 600⟩ := rfl
  have hcreate : create_appointment [demoDoctorMon] [] 7 1 0 demoRequest =
      .ok ([] ++ [newAppointment 7 1 0 demoRequest demoDoctorMon]) := rfl
  exact (C5_availability_round_trip (k := 0) hd hlk (by decide) (by decide)
    (by decide) (by decide) hcreate).1

end Sahatak
